import Mathlib

/-!
Shallow embedding of the apple-ecocide rule generator (src/src/lib.rs and
src/src/wasm.rs): category selection, output assembly and the glob-style
pattern matcher, together with proofs of the specification claims.
-/

namespace AppleEcocide

/-- Mirrors `Mode` in src/src/lib.rs: rule-generation mode. -/
inductive Mode where
  | Block
  | Allow
deriving DecidableEq, Repr

/-- Mirrors Rust `str::to_lowercase` as a character-wise map (identical to the
Rust function on the ASCII mode and severity tags it is applied to). -/
def str_to_lowercase (s : String) : String :=
  String.mk (s.data.map Char.toLower)

/-- Mirrors `Mode::from_str` (lowercases, unknown strings map to none). -/
def Mode.from_str (s : String) : Option Mode :=
  match str_to_lowercase s with
  | "block" => some Mode.Block
  | "allow" => some Mode.Allow
  | _ => none

/-- Mirrors `Mode::as_str`. -/
def Mode.as_str : Mode → String
  | Mode.Block => "block"
  | Mode.Allow => "allow"

/-- Mirrors `Severity` in src/src/lib.rs (declaration order gives the ordinal order
Minimal < Recommended < Aggressive via the derived Rust `Ord`). -/
inductive Severity where
  | Minimal
  | Recommended
  | Aggressive
deriving DecidableEq, Repr

/-- Ordinal of a severity, encoding the derived Rust `Ord` instance
(declaration order). -/
def Severity.toOrdinal : Severity → Nat
  | Severity.Minimal => 0
  | Severity.Recommended => 1
  | Severity.Aggressive => 2

/-- Mirrors `Severity::from_str`. -/
def Severity.from_str (s : String) : Option Severity :=
  match str_to_lowercase s with
  | "minimal" => some Severity.Minimal
  | "recommended" => some Severity.Recommended
  | "aggressive" => some Severity.Aggressive
  | _ => none

/-- Mirrors `Severity::as_str` (also the `Display` instance, which delegates to it). -/
def Severity.as_str : Severity → String
  | Severity.Minimal => "minimal"
  | Severity.Recommended => "recommended"
  | Severity.Aggressive => "aggressive"

/-- Mirrors `CategoryRule` in src/src/lib.rs. -/
structure CategoryRule where
  notes : String
  domains : List String
  deny_process : Option String
deriving DecidableEq, Repr

/-- Mirrors `Category` in src/src/lib.rs. -/
structure Category where
  name : String
  description : String
  severity : Severity
  impact : String
  rules : List CategoryRule
deriving DecidableEq, Repr

/-- Mirrors `LsRule` in src/src/lib.rs (the serialized output rule). -/
structure LsRule where
  action : String
  priority : Option String
  process : String
  remote_domains : List String
  remote : Option String
  protocol : Option String
  disabled : Option Bool
  notes : String
deriving DecidableEq, Repr

/-- Mirrors `LsRulesOutput` in src/src/lib.rs. -/
structure LsRulesOutput where
  name : String
  description : String
  rules : List LsRule
deriving DecidableEq, Repr

/-- Mirrors `CategorySelection` in src/src/lib.rs; the Rust `HashSet<String>`
fields are modelled as finite sets of slugs. -/
structure CategorySelection where
  denied : Finset String
  allowed : Finset String
deriving DecidableEq

/-- Mirrors `GenerateParams` in src/src/lib.rs. -/
structure GenerateParams where
  mode : Mode
  severity : Severity
  «include» : List String
  exclude : List String
  all : Bool
  name : Option String
deriving DecidableEq

/-! ## The glob pattern matcher

Embedding of the `glob` crate (v0.3) as used by `matches_pattern`:
`Pattern::new` followed by `Pattern::matches`, which runs `matches_with`
under the default `MatchOptions` (case sensitive, no literal-separator or
literal-leading-dot requirement); the embedding is specialized to those
defaults. Parse errors carry a position and message in Rust; the only
caller (`matches_pattern`, via `is_ok_and`) discards them, so the
embedding returns an `Option`. -/

/-- Mirrors `CharSpecifier` in the glob crate. -/
inductive CharSpecifier where
  | SingleChar (c : Char)
  | CharRange (lo hi : Char)
deriving DecidableEq, Repr

/-- Mirrors `PatternToken` in the glob crate. -/
inductive PatternToken where
  | Char (c : Char)
  | AnyChar
  | AnySequence
  | AnyRecursiveSequence
  | AnyWithin (cs : List CharSpecifier)
  | AnyExcept (cs : List CharSpecifier)
deriving DecidableEq, Repr

/-- Mirrors `MatchResult` in the glob crate. -/
inductive MatchResult where
  | Match
  | SubPatternDoesntMatch
  | EntirePatternDoesntMatch
deriving DecidableEq, Repr

/-- Mirrors `parse_char_specifiers` in the glob crate: a `-` with characters on
both sides forms a range, anything else is a single character. -/
def parse_char_specifiers : List Char → List CharSpecifier
  | c1 :: '-' :: c2 :: rest => CharSpecifier.CharRange c1 c2 :: parse_char_specifiers rest
  | c :: rest => CharSpecifier.SingleChar c :: parse_char_specifiers rest
  | [] => []

/-- Relative position of the first `]` at or after index `start`
(mirrors `chars[start..].iter().position(|x| *x == ']')`). -/
def position_of_close (chars : Array Char) (start : Nat) : Option Nat :=
  if h : start < chars.size then
    if chars[start] == ']' then some 0
    else (position_of_close chars (start + 1)).map (· + 1)
  else none
termination_by chars.size - start

/-- Number of consecutive `*` characters starting at index `i`. -/
def star_run (chars : Array Char) (i : Nat) : Nat :=
  if h : i < chars.size then
    if chars[i] == '*' then star_run chars (i + 1) + 1 else 0
  else 0
termination_by chars.size - i

/-- Mirrors the token push for a validated `**` in `Pattern::new`: consecutive
`AnyRecursiveSequence` tokens collapse (guarded by `tokens.len() > 1`). -/
def push_recursive (tokens : List PatternToken) : List PatternToken :=
  if tokens.length > 1 && tokens.getLast? == some PatternToken.AnyRecursiveSequence then tokens
  else tokens ++ [PatternToken.AnyRecursiveSequence]

/-- Mirrors the parsing loop of `Pattern::new` in the glob crate: `?`, runs of
`*` (three or more are an error, `**` must form a whole path component),
character classes `[...]` and `[!...]` (unclosed classes are an error), and
literal characters. -/
def parse_tokens (chars : Array Char) (i : Nat) (tokens : List PatternToken) : Option (List PatternToken) :=
  if h : i < chars.size then
    match chars[i] with
    | '?' => parse_tokens chars (i + 1) (tokens ++ [PatternToken.AnyChar])
    | '*' =>
      let count := 1 + star_run chars (i + 1)
      let j := i + count
      if count > 2 then none
      else if count == 2 then
        if i == 0 || chars.getD (i - 1) ' ' == '/' then
          if hj : j < chars.size then
            if chars[j] == '/' then parse_tokens chars (j + 1) (push_recursive tokens)
            else none
          else parse_tokens chars j (push_recursive tokens)
        else none
      else parse_tokens chars j (tokens ++ [PatternToken.AnySequence])
    | '[' =>
      if i + 4 ≤ chars.size && chars.getD (i + 1) ' ' == '!' then
        match position_of_close chars (i + 3) with
        | some j0 =>
          let cs := parse_char_specifiers (chars.extract (i + 2) (i + 3 + j0)).toList
          parse_tokens chars (i + j0 + 4) (tokens ++ [PatternToken.AnyExcept cs])
        | none => none
      else if i + 3 ≤ chars.size && !(chars.getD (i + 1) ' ' == '!') then
        match position_of_close chars (i + 2) with
        | some j0 =>
          let cs := parse_char_specifiers (chars.extract (i + 1) (i + 2 + j0)).toList
          parse_tokens chars (i + j0 + 3) (tokens ++ [PatternToken.AnyWithin cs])
        | none => none
      else none
    | c => parse_tokens chars (i + 1) (tokens ++ [PatternToken.Char c])
  else some tokens
termination_by chars.size - i
decreasing_by all_goals (simp_wf; omega)

/-- Mirrors `in_char_specifiers` in the glob crate, specialized to
case-sensitive matching. -/
def in_char_specifiers (specifiers : List CharSpecifier) (c : Char) : Bool :=
  specifiers.any fun s =>
    match s with
    | CharSpecifier.SingleChar sc => sc == c
    | CharSpecifier.CharRange lo hi => decide (lo ≤ c) && decide (c ≤ hi)

mutual

/-- Mirrors `Pattern::matches_from` in the glob crate (default options): walks
the token list consuming the candidate string; `*` and `**` try the empty
match first and then longer and longer consumed prefixes via `star_loop`. -/
def matches_from (fs : Bool) (file : List Char) (tokens : List PatternToken) : MatchResult :=
  match tokens with
  | [] => if file.isEmpty then MatchResult.Match else MatchResult.SubPatternDoesntMatch
  | tok :: rest =>
    match tok with
    | PatternToken.AnySequence =>
      (match matches_from fs file rest with
       | MatchResult.SubPatternDoesntMatch => star_loop false fs file rest
       | m => m)
    | PatternToken.AnyRecursiveSequence =>
      (match matches_from fs file rest with
       | MatchResult.SubPatternDoesntMatch => star_loop true fs file rest
       | m => m)
    | _ =>
      match file with
      | [] => MatchResult.EntirePatternDoesntMatch
      | c :: file' =>
        let ok : Bool :=
          match tok with
          | PatternToken.AnyChar => true
          | PatternToken.AnyWithin cs => in_char_specifiers cs c
          | PatternToken.AnyExcept cs => !(in_char_specifiers cs c)
          | PatternToken.Char c2 => c == c2
          | _ => false
        if ok then matches_from (c == '/') file' rest
        else MatchResult.SubPatternDoesntMatch
termination_by (2 * tokens.length, file.length)

/-- Mirrors the `while let Some(c) = file.next()` loop inside the `*` arm of
`matches_from`: consume one character, for `**` only retry at separator
boundaries, and when the string is exhausted fall through to the tokens after
the wildcard. -/
def star_loop (recursive : Bool) (fs : Bool) (file : List Char) (rest : List PatternToken) : MatchResult :=
  match file with
  | [] => matches_from fs [] rest
  | c :: file' =>
    let fs' := c == '/'
    if recursive && !fs' then star_loop recursive fs' file' rest
    else
      match matches_from fs' file' rest with
      | MatchResult.SubPatternDoesntMatch => star_loop recursive fs' file' rest
      | m => m
termination_by (2 * rest.length + 1, file.length)

end

/-- Mirrors `Pattern` in the glob crate (the unused `original` and
`is_recursive` fields are dropped: `matches` only reads `tokens`). -/
structure Pattern where
  tokens : List PatternToken
deriving DecidableEq, Repr

/-- Mirrors `Pattern::new`. -/
def Pattern.new (pattern : String) : Option Pattern :=
  (parse_tokens pattern.toList.toArray 0 []).map Pattern.mk

/-- Mirrors `Pattern::matches` (default `MatchOptions`; the initial
`follows_separator` flag is `true`). -/
def Pattern.matches (p : Pattern) (s : String) : Bool :=
  match matches_from true s.toList p.tokens with
  | MatchResult.Match => true
  | _ => false

/-- Mirrors `matches_pattern` in src/src/lib.rs. -/
def matches_pattern (slug pattern : String) : Bool :=
  if pattern.toList.any (fun c => c == '*' || c == '?' || c == '[') then
    match Pattern.new pattern with
    | some p => p.matches slug
    | none => false
  else pattern == slug

/-- Mirrors `matches_any_pattern` in src/src/lib.rs. -/
def matches_any_pattern (slug : String) (patterns : List String) : Bool :=
  patterns.any fun p => matches_pattern slug p

/-! ## Category selection -/

/-- Mirrors the `within_severity` closure in `select_categories`:
`cat.severity <= params.severity` under the derived `Ord` on `Severity`. -/
def within_severity (threshold : Severity) (cat : Category) : Bool :=
  decide (cat.severity.toOrdinal ≤ threshold.toOrdinal)

/-- Mirrors the `is_excluded` closure in `select_categories`: exclusion applies
only when the exclude pattern list is non-empty. -/
def is_excluded (exclude_patterns : List String) (slug : String) : Bool :=
  !exclude_patterns.isEmpty && matches_any_pattern slug exclude_patterns

/-- Loop body of the `(Mode::Block, true, false)` arm of `select_categories`
(Block mode with include patterns, `all` not set). -/
def block_include_step (include_patterns exclude_patterns : List String) (threshold : Severity)
    (sel : CategorySelection) (p : String × Category) : CategorySelection :=
  if matches_any_pattern p.1 include_patterns && !is_excluded exclude_patterns p.1 then
    if within_severity threshold p.2 then { sel with denied := insert p.1 sel.denied }
    else sel
  else sel

/-- Loop body of the `(Mode::Allow, _, _)` arm of `select_categories`. -/
def allow_mode_step (include_patterns exclude_patterns : List String) (threshold : Severity)
    (sel : CategorySelection) (p : String × Category) : CategorySelection :=
  if !within_severity threshold p.2 then sel
  else if matches_any_pattern p.1 include_patterns then
    { sel with allowed := insert p.1 sel.allowed }
  else if !is_excluded exclude_patterns p.1 then
    { sel with denied := insert p.1 sel.denied }
  else sel

/-- Mirrors `select_categories` in src/src/lib.rs: dispatch on
`(mode, include patterns non-empty, all flag)` with three arms. -/
def select_categories (params : GenerateParams) (categories : List (String × Category)) :
    CategorySelection :=
  match params.mode, !params.«include».isEmpty, params.all with
  | Mode.Block, false, _ | Mode.Block, _, true =>
    { denied := ((categories.filter fun p =>
        within_severity params.severity p.2 && !is_excluded params.exclude p.1).map
          Prod.fst).toFinset
      allowed := ∅ }
  | Mode.Block, true, false =>
    categories.foldl (block_include_step params.«include» params.exclude params.severity)
      { denied := ∅, allowed := ∅ }
  | Mode.Allow, _, _ =>
    categories.foldl (allow_mode_step params.«include» params.exclude params.severity)
      { denied := ∅, allowed := ∅ }

/-! ## Output assembly -/

/-- Modelled from the spec: the tool version interpolated via the build-time
environment variable CARGO_PKG_VERSION; the package manifest is not among the
sources, so the concrete value is a placeholder (no claim depends on it). -/
def CARGO_PKG_VERSION : String := "0.1.0"

/-- Pass 1 of `build_output`: process-based deny rules for denied categories. -/
def process_deny_rules (categories : List (String × Category)) (denied : Finset String) :
    List LsRule :=
  (categories.filter fun p => decide (p.1 ∈ denied)).flatMap fun p =>
    p.2.rules.filterMap fun rule =>
      rule.deny_process.map fun process =>
        { action := "deny"
          priority := some "high"
          process := process
          remote_domains := []
          remote := some "any"
          protocol := some "any"
          disabled := none
          notes := "[" ++ p.1 ++ "] " ++ rule.notes }

/-- Pass 2 of `build_output`: domain-based deny rules for denied categories. -/
def domain_deny_rules (categories : List (String × Category)) (denied : Finset String) :
    List LsRule :=
  (categories.filter fun p => decide (p.1 ∈ denied)).flatMap fun p =>
    p.2.rules.filterMap fun rule =>
      if rule.domains.isEmpty then none
      else some
        { action := "deny"
          priority := none
          process := "any"
          remote_domains := rule.domains
          remote := none
          protocol := none
          disabled := none
          notes := "[" ++ p.1 ++ "] " ++ rule.notes }

/-- Pass 3 of `build_output`: domain-based allow rules for allowed categories. -/
def allow_domain_rules (categories : List (String × Category)) (allowed : Finset String) :
    List LsRule :=
  (categories.filter fun p => decide (p.1 ∈ allowed)).flatMap fun p =>
    p.2.rules.filterMap fun rule =>
      if rule.domains.isEmpty then none
      else some
        { action := "allow"
          priority := none
          process := "any"
          remote_domains := rule.domains
          remote := none
          protocol := none
          disabled := some false
          notes := "[" ++ p.1 ++ "] " ++ rule.notes }

/-- Mirrors `build_description` in src/src/lib.rs: the Rust code sorts the
slug sets and formats one of two strings depending on whether any category
was allowed. -/
def build_description (params : GenerateParams) (selection : CategorySelection) : String :=
  let mode_str := params.mode.as_str
  let denied := selection.denied.sort (· ≤ ·)
  let allowed := selection.allowed.sort (· ≤ ·)
  if allowed.isEmpty then
    "Generated by apple-ecocide v" ++ CARGO_PKG_VERSION ++ ". Mode: " ++ mode_str ++
      ". Severity: " ++ params.severity.as_str ++ ". Denied (" ++ toString denied.length ++
      "): " ++ String.intercalate ", " denied
  else
    "Generated by apple-ecocide v" ++ CARGO_PKG_VERSION ++ ". Mode: " ++ mode_str ++
      ". Severity: " ++ params.severity.as_str ++ ". Allowed (" ++ toString allowed.length ++
      "): " ++ String.intercalate ", " allowed ++ ". Denied (" ++ toString denied.length ++
      "): " ++ String.intercalate ", " denied

/-- Mirrors `build_output` in src/src/lib.rs: three rule passes in order, a
description, and the ruleset name defaulting to "Apple Ecocide". -/
def build_output (params : GenerateParams) (categories : List (String × Category))
    (selection : CategorySelection) : LsRulesOutput :=
  { name := params.name.getD "Apple Ecocide"
    description := build_description params selection
    rules := process_deny_rules categories selection.denied ++
      domain_deny_rules categories selection.denied ++
      allow_domain_rules categories selection.allowed }

/-- Mirrors `generate_rules_json` in src/src/lib.rs, with the loaded category
list passed in (the source loads it from resources embedded in the binary,
which are not part of the sources) and the final document returned in place
of its serde JSON rendering, which cannot fail for these types. -/
def generate_rules_json (params : GenerateParams) (categories : List (String × Category)) :
    Except String LsRulesOutput :=
  let selection := select_categories params categories
  if selection.denied = ∅ ∧ selection.allowed = ∅ then
    Except.error "No categories selected. Use include patterns or enable 'all'."
  else
    Except.ok (build_output params categories selection)

/-! ## The WASM entry point (src/src/wasm.rs) -/

/-- Mirrors the parameter construction in `generate_rules` in src/src/wasm.rs:
mode and severity fall back to their defaults, include and exclude are split
on commas and trimmed, the name is optional, and `all` is always `true`. -/
def wasm_build_params (mode severity include_arg exclude_arg name : String) : GenerateParams :=
  { mode := (Mode.from_str mode).getD Mode.Block
    severity := (Severity.from_str severity).getD Severity.Recommended
    «include» := if include_arg.isEmpty then [] else (include_arg.splitOn ",").map String.trim
    exclude := if exclude_arg.isEmpty then [] else (exclude_arg.splitOn ",").map String.trim
    all := true
    name := if name.isEmpty then none else some name }

/-- Mirrors the body of `generate_rules` in src/src/wasm.rs after category
loading: select, fail when the selection is empty, otherwise build the
document (returned in place of its serde JSON rendering). -/
def wasm_generate_rules (mode severity include_arg exclude_arg name : String)
    (categories : List (String × Category)) : Except String LsRulesOutput :=
  let params := wasm_build_params mode severity include_arg exclude_arg name
  let selection := select_categories params categories
  if selection.denied = ∅ ∧ selection.allowed = ∅ then
    Except.error "No categories selected. Check your include/exclude patterns."
  else
    Except.ok (build_output params categories selection)

/-! ## Helper lemmas about the selection -/

/-- The denied-set update of `block_include_step` as one combined condition. -/
theorem block_include_step_denied (inc exc : List String) (sev : Severity)
    (sel : CategorySelection) (p : String × Category) :
    (block_include_step inc exc sev sel p).denied =
      if matches_any_pattern p.1 inc && !is_excluded exc p.1 && within_severity sev p.2 then
        insert p.1 sel.denied
      else sel.denied := by
  cases hA : matches_any_pattern p.1 inc && !is_excluded exc p.1 <;>
    cases hB : within_severity sev p.2 <;>
    simp [block_include_step, hA, hB]

/-- The step `block_include_step` never touches the allowed set. -/
theorem block_include_step_allowed (inc exc : List String) (sev : Severity)
    (sel : CategorySelection) (p : String × Category) :
    (block_include_step inc exc sev sel p).allowed = sel.allowed := by
  cases hA : matches_any_pattern p.1 inc && !is_excluded exc p.1 <;>
    cases hB : within_severity sev p.2 <;>
    simp [block_include_step, hA, hB]

/-- The allowed-set update of `allow_mode_step` as one combined condition. -/
theorem allow_mode_step_allowed (inc exc : List String) (sev : Severity)
    (sel : CategorySelection) (p : String × Category) :
    (allow_mode_step inc exc sev sel p).allowed =
      if within_severity sev p.2 && matches_any_pattern p.1 inc then
        insert p.1 sel.allowed
      else sel.allowed := by
  cases hA : within_severity sev p.2 <;> cases hB : matches_any_pattern p.1 inc <;>
    cases hC : is_excluded exc p.1 <;> simp [allow_mode_step, hA, hB, hC]

/-- The denied-set update of `allow_mode_step` as one combined condition. -/
theorem allow_mode_step_denied (inc exc : List String) (sev : Severity)
    (sel : CategorySelection) (p : String × Category) :
    (allow_mode_step inc exc sev sel p).denied =
      if within_severity sev p.2 && !matches_any_pattern p.1 inc && !is_excluded exc p.1 then
        insert p.1 sel.denied
      else sel.denied := by
  cases hA : within_severity sev p.2 <;> cases hB : matches_any_pattern p.1 inc <;>
    cases hC : is_excluded exc p.1 <;> simp [allow_mode_step, hA, hB, hC]

/-- Membership in a fold that conditionally inserts the slug of each visited
pair into a finite set. -/
theorem mem_foldl_insert_cond (f : String × Category → Bool) (l : List (String × Category))
    (s : Finset String) (x : String) :
    x ∈ l.foldl (fun acc p => if f p then insert p.1 acc else acc) s ↔
      x ∈ s ∨ ∃ c, (x, c) ∈ l ∧ f (x, c) = true := by
  induction l generalizing s with
  | nil => simp
  | cons a t ih =>
    obtain ⟨s₁, c₁⟩ := a
    simp only [List.foldl_cons]
    rw [ih]
    by_cases hf : f (s₁, c₁) = true
    · rw [if_pos hf]
      simp only [Finset.mem_insert, List.mem_cons, Prod.mk.injEq]
      constructor
      · rintro ((rfl | h) | ⟨c, hc, hfc⟩)
        · exact Or.inr ⟨c₁, Or.inl ⟨rfl, rfl⟩, hf⟩
        · exact Or.inl h
        · exact Or.inr ⟨c, Or.inr hc, hfc⟩
      · rintro (h | ⟨c, hcc, hfc⟩)
        · exact Or.inl (Or.inr h)
        · rcases hcc with ⟨rfl, rfl⟩ | hc
          · exact Or.inl (Or.inl rfl)
          · exact Or.inr ⟨c, hc, hfc⟩
    · rw [if_neg hf]
      simp only [List.mem_cons, Prod.mk.injEq]
      constructor
      · rintro (h | ⟨c, hc, hfc⟩)
        · exact Or.inl h
        · exact Or.inr ⟨c, Or.inr hc, hfc⟩
      · rintro (h | ⟨c, hcc, hfc⟩)
        · exact Or.inl h
        · rcases hcc with ⟨rfl, rfl⟩ | hc
          · exact absurd hfc hf
          · exact Or.inr ⟨c, hc, hfc⟩

/-- Projection of the Block-with-includes fold onto its denied set. -/
theorem foldl_block_include_denied (inc exc : List String) (sev : Severity)
    (l : List (String × Category)) (sel : CategorySelection) :
    (l.foldl (block_include_step inc exc sev) sel).denied =
      l.foldl
        (fun acc p =>
          if matches_any_pattern p.1 inc && !is_excluded exc p.1 && within_severity sev p.2 then
            insert p.1 acc
          else acc)
        sel.denied := by
  induction l generalizing sel with
  | nil => rfl
  | cons a t ih => rw [List.foldl_cons, ih, List.foldl_cons, block_include_step_denied]

/-- The Block-with-includes fold leaves the allowed set unchanged. -/
theorem foldl_block_include_allowed (inc exc : List String) (sev : Severity)
    (l : List (String × Category)) (sel : CategorySelection) :
    (l.foldl (block_include_step inc exc sev) sel).allowed = sel.allowed := by
  induction l generalizing sel with
  | nil => rfl
  | cons a t ih => rw [List.foldl_cons, ih, block_include_step_allowed]

/-- Projection of the Allow-mode fold onto its allowed set. -/
theorem foldl_allow_mode_allowed (inc exc : List String) (sev : Severity)
    (l : List (String × Category)) (sel : CategorySelection) :
    (l.foldl (allow_mode_step inc exc sev) sel).allowed =
      l.foldl
        (fun acc p =>
          if within_severity sev p.2 && matches_any_pattern p.1 inc then insert p.1 acc
          else acc)
        sel.allowed := by
  induction l generalizing sel with
  | nil => rfl
  | cons a t ih => rw [List.foldl_cons, ih, List.foldl_cons, allow_mode_step_allowed]

/-- Projection of the Allow-mode fold onto its denied set. -/
theorem foldl_allow_mode_denied (inc exc : List String) (sev : Severity)
    (l : List (String × Category)) (sel : CategorySelection) :
    (l.foldl (allow_mode_step inc exc sev) sel).denied =
      l.foldl
        (fun acc p =>
          if within_severity sev p.2 && !matches_any_pattern p.1 inc && !is_excluded exc p.1 then
            insert p.1 acc
          else acc)
        sel.denied := by
  induction l generalizing sel with
  | nil => rfl
  | cons a t ih => rw [List.foldl_cons, ih, List.foldl_cons, allow_mode_step_denied]

/-- Branch reduction: Block mode with no include patterns, or with the `all`
flag set, yields the deny-all-within-severity selection. -/
theorem select_categories_block_all (params : GenerateParams)
    (categories : List (String × Category)) (hm : params.mode = Mode.Block)
    (h : params.«include» = [] ∨ params.all = true) :
    select_categories params categories =
      { denied := ((categories.filter fun p =>
          within_severity params.severity p.2 && !is_excluded params.exclude p.1).map
            Prod.fst).toFinset
        allowed := ∅ } := by
  obtain ⟨mode, sev, inc, exc, all, name⟩ := params
  simp only at hm
  subst hm
  rcases h with h | h
  · simp only at h
    subst h
    cases all <;> rfl
  · simp only at h
    subst h
    cases inc <;> rfl

/-- Branch reduction: Block mode with include patterns and `all` unset runs
the include-driven fold. -/
theorem select_categories_block_include (params : GenerateParams)
    (categories : List (String × Category)) (hm : params.mode = Mode.Block)
    (hne : params.«include» ≠ []) (hall : params.all = false) :
    select_categories params categories =
      categories.foldl (block_include_step params.«include» params.exclude params.severity)
        { denied := ∅, allowed := ∅ } := by
  obtain ⟨mode, sev, inc, exc, all, name⟩ := params
  simp only at hm hne hall
  subst hm
  subst hall
  cases inc with
  | nil => exact absurd rfl hne
  | cons a t => rfl

/-- Branch reduction: Allow mode runs the allow-mode fold. -/
theorem select_categories_allow (params : GenerateParams)
    (categories : List (String × Category)) (hm : params.mode = Mode.Allow) :
    select_categories params categories =
      categories.foldl (allow_mode_step params.«include» params.exclude params.severity)
        { denied := ∅, allowed := ∅ } := by
  obtain ⟨mode, sev, inc, exc, all, name⟩ := params
  simp only at hm
  subst hm
  cases inc <;> cases all <;> rfl

/-- Unfolding of non-exclusion: either there are no exclude patterns or the
slug matches none of them. -/
theorem not_excluded_iff (exc : List String) (slug : String) :
    (!is_excluded exc slug) = true ↔
      exc = [] ∨ matches_any_pattern slug exc = false := by
  cases he : exc.isEmpty
  · cases hme : matches_any_pattern slug exc <;>
      simp_all [is_excluded, List.isEmpty_iff]
  · simp_all [is_excluded, List.isEmpty_iff]

/-- Unfolding of the severity filter as an ordinal comparison. -/
theorem within_severity_iff (sev : Severity) (cat : Category) :
    within_severity sev cat = true ↔ cat.severity.toOrdinal ≤ sev.toOrdinal := by
  simp [within_severity]

/-- Membership in the denied set built by the Block-with-includes fold. -/
theorem mem_denied_block_include_fold (inc exc : List String) (sev : Severity)
    (l : List (String × Category)) (x : String) :
    x ∈ (l.foldl (block_include_step inc exc sev) { denied := ∅, allowed := ∅ }).denied ↔
      ∃ c, (x, c) ∈ l ∧
        (matches_any_pattern x inc && !is_excluded exc x && within_severity sev c) = true := by
  rw [foldl_block_include_denied]
  have h := mem_foldl_insert_cond
    (fun p => matches_any_pattern p.1 inc && !is_excluded exc p.1 && within_severity sev p.2)
    l ∅ x
  simpa using h

/-- Membership in the allowed set built by the Allow-mode fold. -/
theorem mem_allowed_allow_fold (inc exc : List String) (sev : Severity)
    (l : List (String × Category)) (x : String) :
    x ∈ (l.foldl (allow_mode_step inc exc sev) { denied := ∅, allowed := ∅ }).allowed ↔
      ∃ c, (x, c) ∈ l ∧
        (within_severity sev c && matches_any_pattern x inc) = true := by
  rw [foldl_allow_mode_allowed]
  have h := mem_foldl_insert_cond
    (fun p => within_severity sev p.2 && matches_any_pattern p.1 inc) l ∅ x
  simpa using h

/-- Membership in the denied set built by the Allow-mode fold. -/
theorem mem_denied_allow_fold (inc exc : List String) (sev : Severity)
    (l : List (String × Category)) (x : String) :
    x ∈ (l.foldl (allow_mode_step inc exc sev) { denied := ∅, allowed := ∅ }).denied ↔
      ∃ c, (x, c) ∈ l ∧
        (within_severity sev c && !matches_any_pattern x inc && !is_excluded exc x) = true := by
  rw [foldl_allow_mode_denied]
  have h := mem_foldl_insert_cond
    (fun p =>
      within_severity sev p.2 && !matches_any_pattern p.1 inc && !is_excluded exc p.1)
    l ∅ x
  simpa using h

/-! ## Concrete fixtures from the specification scenarios -/

/-- Scenario fixture: the "apple-telemetry" category (Recommended) with one
process-deny rule. -/
def telemetry_category : Category :=
  ⟨"Apple Telemetry", "Telemetry services", Severity.Recommended, "Telemetry impact",
    [⟨"block telemetry daemon", [], some "/usr/libexec/telemetryd"⟩]⟩

/-- Scenario fixture: the "apple-appstore" category at Aggressive severity with
one domain rule. -/
def appstore_category : Category :=
  ⟨"App Store", "App Store services", Severity.Aggressive, "App Store impact",
    [⟨"block app store", ["apps.apple.com"], none⟩]⟩

/-- Scenario fixture: the "apple-appstore" category at Recommended severity
with one domain rule. -/
def appstore_recommended_category : Category :=
  ⟨"App Store", "App Store services", Severity.Recommended, "App Store impact",
    [⟨"allow app store", ["apps.apple.com"], none⟩]⟩

/-- Scenario fixture: the "google-telemetry" category (Recommended) with one
domain rule. -/
def google_telemetry_category : Category :=
  ⟨"Google Telemetry", "Google telemetry", Severity.Recommended, "Google impact",
    [⟨"block google telemetry", ["telemetry.google.com"], none⟩]⟩

/-- Scenario 1 parameters: mode Block, severity Recommended, no includes,
no excludes, all unset. -/
def scenario1_params : GenerateParams :=
  ⟨Mode.Block, Severity.Recommended, [], [], false, none⟩

/-- Scenario 2 parameters: mode Block, severity Recommended, all set. -/
def scenario2_params : GenerateParams :=
  ⟨Mode.Block, Severity.Recommended, [], [], true, none⟩

/-- Scenario 2 categories: apple-telemetry (Recommended) and apple-appstore
(Aggressive). -/
def scenario2_categories : List (String × Category) :=
  [("apple-telemetry", telemetry_category), ("apple-appstore", appstore_category)]

/-- Scenario 3 parameters: mode Allow, include pattern "apple-appstore". -/
def scenario3_params : GenerateParams :=
  ⟨Mode.Allow, Severity.Recommended, ["apple-appstore"], [], false, none⟩

/-- Scenario 3 categories: apple-appstore and google-telemetry, both
Recommended, each with one domain rule. -/
def scenario3_categories : List (String × Category) :=
  [("apple-appstore", appstore_recommended_category),
   ("google-telemetry", google_telemetry_category)]

/-! ## Claims -/

/-- C1: for every `GenerateParams` value and every category list, the
`CategorySelection` returned by `select_categories` has disjoint denied and
allowed sets: no slug is a member of both. -/
theorem c1_selection_sets_disjoint (params : GenerateParams)
    (categories : List (String × Category)) :
    (select_categories params categories).denied ∩
      (select_categories params categories).allowed = ∅ := by
  cases hm : params.mode with
  | Block =>
    by_cases hia : params.«include» = [] ∨ params.all = true
    · rw [select_categories_block_all params categories hm hia]
      simp
    · push_neg at hia
      obtain ⟨hne, hall⟩ := hia
      have hall' : params.all = false := by
        cases hb : params.all
        · rfl
        · exact absurd hb hall
      rw [select_categories_block_include params categories hm hne hall']
      rw [foldl_block_include_allowed]
      simp
  | Allow =>
    rw [select_categories_allow params categories hm]
    rw [Finset.eq_empty_iff_forall_not_mem]
    intro x hx
    rw [Finset.mem_inter] at hx
    obtain ⟨hd, ha⟩ := hx
    rw [mem_denied_allow_fold] at hd
    rw [mem_allowed_allow_fold] at ha
    obtain ⟨c, -, hcond⟩ := hd
    obtain ⟨c', -, hcond'⟩ := ha
    simp only [Bool.and_eq_true, Bool.not_eq_true'] at hcond hcond'
    exact absurd hcond'.2 (by simp [hcond.1.2])

/-- C2: in Block mode with no include patterns or with the `all` flag set,
`select_categories` denies exactly the categories within the severity
threshold that match no exclude pattern (exclusion applying only when the
exclude list is non-empty), and allows nothing. -/
theorem c2_block_all_denies_within_severity (params : GenerateParams)
    (categories : List (String × Category)) (hm : params.mode = Mode.Block)
    (h : params.«include» = [] ∨ params.all = true) :
    (select_categories params categories).allowed = ∅ ∧
    ∀ slug, slug ∈ (select_categories params categories).denied ↔
      ∃ cat, (slug, cat) ∈ categories ∧
        cat.severity.toOrdinal ≤ params.severity.toOrdinal ∧
        (params.exclude = [] ∨ matches_any_pattern slug params.exclude = false) := by
  rw [select_categories_block_all params categories hm h]
  refine ⟨rfl, fun slug => ?_⟩
  simp only [List.mem_toFinset, List.mem_map, List.mem_filter]
  constructor
  · rintro ⟨⟨s, cat⟩, ⟨hmem, hcond⟩, rfl⟩
    rw [Bool.and_eq_true] at hcond
    exact ⟨cat, hmem, (within_severity_iff _ _).mp hcond.1,
      (not_excluded_iff _ _).mp hcond.2⟩
  · rintro ⟨cat, hmem, hsev, hexc⟩
    exact ⟨(slug, cat), ⟨hmem, by
      rw [Bool.and_eq_true]
      exact ⟨(within_severity_iff _ _).mpr hsev, (not_excluded_iff _ _).mpr hexc⟩⟩, rfl⟩

/-- Witness for C2 at Scenario 2: with apple-telemetry (Recommended) and
apple-appstore (Aggressive), mode Block, severity Recommended and the all
flag set, only apple-telemetry is denied and nothing is allowed. -/
theorem c2_block_all_denies_within_severity_witness :
    (select_categories scenario2_params scenario2_categories).allowed = ∅ ∧
    (select_categories scenario2_params scenario2_categories).denied =
      {"apple-telemetry"} :=
  ⟨(c2_block_all_denies_within_severity scenario2_params scenario2_categories rfl
      (Or.inr rfl)).1,
   by decide⟩

/-- C3: in Allow mode only categories within the severity threshold are
considered; among those, an include-matching slug is allowed, a non-matching
and non-excluded slug is denied, and anything else (or anything above the
threshold) lands in neither set. -/
theorem c3_allow_mode_selection (params : GenerateParams)
    (categories : List (String × Category)) (hm : params.mode = Mode.Allow) :
    (∀ slug, slug ∈ (select_categories params categories).allowed ↔
      ∃ cat, (slug, cat) ∈ categories ∧
        cat.severity.toOrdinal ≤ params.severity.toOrdinal ∧
        matches_any_pattern slug params.«include» = true) ∧
    (∀ slug, slug ∈ (select_categories params categories).denied ↔
      ∃ cat, (slug, cat) ∈ categories ∧
        cat.severity.toOrdinal ≤ params.severity.toOrdinal ∧
        matches_any_pattern slug params.«include» = false ∧
        (params.exclude = [] ∨ matches_any_pattern slug params.exclude = false)) := by
  rw [select_categories_allow params categories hm]
  constructor
  · intro slug
    rw [mem_allowed_allow_fold]
    constructor
    · rintro ⟨cat, hmem, hcond⟩
      rw [Bool.and_eq_true] at hcond
      exact ⟨cat, hmem, (within_severity_iff _ _).mp hcond.1, hcond.2⟩
    · rintro ⟨cat, hmem, hsev, hmatch⟩
      exact ⟨cat, hmem, by
        rw [Bool.and_eq_true]
        exact ⟨(within_severity_iff _ _).mpr hsev, hmatch⟩⟩
  · intro slug
    rw [mem_denied_allow_fold]
    constructor
    · rintro ⟨cat, hmem, hcond⟩
      simp only [Bool.and_eq_true, Bool.not_eq_true'] at hcond
      exact ⟨cat, hmem, (within_severity_iff _ _).mp hcond.1.1, hcond.1.2,
        (not_excluded_iff _ _).mp (by simp [hcond.2])⟩
    · rintro ⟨cat, hmem, hsev, hmatch, hexc⟩
      refine ⟨cat, hmem, ?_⟩
      simp only [Bool.and_eq_true, Bool.not_eq_true']
      exact ⟨⟨(within_severity_iff _ _).mpr hsev, hmatch⟩, by
        have := (not_excluded_iff params.exclude slug).mpr hexc
        simpa using this⟩

/-- Witness for C3 at Scenario 3: mode Allow with include "apple-appstore"
over apple-appstore and google-telemetry (both Recommended) allows exactly
apple-appstore and denies exactly google-telemetry. -/
theorem c3_allow_mode_selection_witness :
    ("apple-appstore" ∈ (select_categories scenario3_params scenario3_categories).allowed ↔
      ∃ cat, ("apple-appstore", cat) ∈ scenario3_categories ∧
        cat.severity.toOrdinal ≤ scenario3_params.severity.toOrdinal ∧
        matches_any_pattern "apple-appstore" scenario3_params.«include» = true) ∧
    (select_categories scenario3_params scenario3_categories).allowed = {"apple-appstore"} ∧
    (select_categories scenario3_params scenario3_categories).denied = {"google-telemetry"} :=
  ⟨(c3_allow_mode_selection scenario3_params scenario3_categories rfl).1 "apple-appstore",
   by decide, by decide⟩

/-- C4: in Block mode with include patterns and `all` unset, a slug is denied
exactly when it matches an include pattern, is not excluded, and its category
is within the severity threshold; the allowed set stays empty (an
include-matching category above the threshold is skipped, with no error:
the function is total and returns an ordinary selection). -/
theorem c4_block_include_selection (params : GenerateParams)
    (categories : List (String × Category)) (hm : params.mode = Mode.Block)
    (hne : params.«include» ≠ []) (hall : params.all = false) :
    (select_categories params categories).allowed = ∅ ∧
    ∀ slug, slug ∈ (select_categories params categories).denied ↔
      ∃ cat, (slug, cat) ∈ categories ∧
        matches_any_pattern slug params.«include» = true ∧
        (params.exclude = [] ∨ matches_any_pattern slug params.exclude = false) ∧
        cat.severity.toOrdinal ≤ params.severity.toOrdinal := by
  rw [select_categories_block_include params categories hm hne hall]
  constructor
  · rw [foldl_block_include_allowed]
  · intro slug
    rw [mem_denied_block_include_fold]
    constructor
    · rintro ⟨cat, hmem, hcond⟩
      simp only [Bool.and_eq_true] at hcond
      exact ⟨cat, hmem, hcond.1.1, (not_excluded_iff _ _).mp hcond.1.2,
        (within_severity_iff _ _).mp hcond.2⟩
    · rintro ⟨cat, hmem, hmatch, hexc, hsev⟩
      refine ⟨cat, hmem, ?_⟩
      simp only [Bool.and_eq_true]
      exact ⟨⟨hmatch, (not_excluded_iff _ _).mpr hexc⟩, (within_severity_iff _ _).mpr hsev⟩

/-- Parameters exercising the silent severity skip in the
Block-with-includes branch: include "apple-appstore" at Recommended severity. -/
def include_skip_params : GenerateParams :=
  ⟨Mode.Block, Severity.Recommended, ["apple-appstore"], [], false, none⟩

/-- Witness for C4: including only the Aggressive apple-appstore category at
Recommended severity denies nothing and allows nothing — the matching
category above the threshold is skipped without an error. -/
theorem c4_block_include_selection_witness :
    (select_categories include_skip_params scenario2_categories).allowed = ∅ ∧
    (select_categories include_skip_params scenario2_categories).denied = ∅ :=
  ⟨(c4_block_include_selection include_skip_params scenario2_categories rfl
      (by decide) rfl).1,
   by decide⟩

/-! ## Helper lemmas about the output passes -/

/-- Every rule emitted by the process-deny pass is a deny rule with an empty
remote-domain list. -/
theorem process_deny_rules_shape (categories : List (String × Category))
    (denied : Finset String) :
    ∀ r ∈ process_deny_rules categories denied,
      r.action = "deny" ∧ r.remote_domains = [] := by
  intro r hr
  simp only [process_deny_rules, List.mem_flatMap, List.mem_filterMap] at hr
  obtain ⟨p, hp, rule, hrule, hmap⟩ := hr
  rw [Option.map_eq_some'] at hmap
  obtain ⟨proc, hproc, rfl⟩ := hmap
  exact ⟨rfl, rfl⟩

/-- Every rule emitted by the domain-deny pass is a deny rule with a
non-empty remote-domain list. -/
theorem domain_deny_rules_shape (categories : List (String × Category))
    (denied : Finset String) :
    ∀ r ∈ domain_deny_rules categories denied,
      r.action = "deny" ∧ r.remote_domains ≠ [] := by
  intro r hr
  simp only [domain_deny_rules, List.mem_flatMap, List.mem_filterMap] at hr
  obtain ⟨p, hp, rule, hrule, hif⟩ := hr
  by_cases hd : rule.domains.isEmpty = true
  · rw [if_pos hd] at hif
    exact absurd hif (by simp)
  · rw [if_neg hd] at hif
    rw [Option.some.injEq] at hif
    subst hif
    refine ⟨rfl, fun hnil => ?_⟩
    exact hd (by simp_all)

/-- Every rule emitted by the domain-allow pass is an allow rule. -/
theorem allow_domain_rules_shape (categories : List (String × Category))
    (allowed : Finset String) :
    ∀ r ∈ allow_domain_rules categories allowed, r.action = "allow" := by
  intro r hr
  simp only [allow_domain_rules, List.mem_flatMap, List.mem_filterMap] at hr
  obtain ⟨p, hp, rule, hrule, hif⟩ := hr
  by_cases hd : rule.domains.isEmpty = true
  · rw [if_pos hd] at hif
    exact absurd hif (by simp)
  · rw [if_neg hd] at hif
    rw [Option.some.injEq] at hif
    subst hif
    rfl

/-- Emission tier of an output rule: process-deny rules rank 0, domain-deny
rules rank 1, allow rules rank 2. -/
def rule_rank (r : LsRule) : Nat :=
  if r.action = "allow" then 2 else if r.remote_domains.isEmpty then 0 else 1

/-- A deny rule without domains sits in tier 0. -/
theorem rule_rank_process_deny (r : LsRule) (h1 : r.action = "deny")
    (h2 : r.remote_domains = []) : rule_rank r = 0 := by
  rw [rule_rank, h1, if_neg (by decide), h2]
  rfl

/-- A deny rule with domains sits in tier 1. -/
theorem rule_rank_domain_deny (r : LsRule) (h1 : r.action = "deny")
    (h2 : r.remote_domains ≠ []) : rule_rank r = 1 := by
  rw [rule_rank, h1, if_neg (by decide), if_neg (by simpa using h2)]

/-- An allow rule sits in tier 2. -/
theorem rule_rank_allow (r : LsRule) (h1 : r.action = "allow") : rule_rank r = 2 := by
  rw [rule_rank, h1, if_pos rfl]

/-- A list whose elements all share one rank is rank-monotone. -/
theorem pairwise_rank_of_const (l : List LsRule) (k : Nat)
    (h : ∀ r ∈ l, rule_rank r = k) :
    l.Pairwise (fun a b => rule_rank a ≤ rule_rank b) := by
  rw [List.pairwise_iff_getElem]
  intro i j hi hj hij
  rw [h _ (List.getElem_mem hi), h _ (List.getElem_mem hj)]

/-- The rule list built by `build_output` is rank-monotone: process-deny,
then domain-deny, then allow. -/
theorem build_output_rules_rank_monotone (params : GenerateParams)
    (categories : List (String × Category)) (selection : CategorySelection) :
    ((build_output params categories selection).rules).Pairwise
      (fun a b => rule_rank a ≤ rule_rank b) := by
  have hA : ∀ r ∈ process_deny_rules categories selection.denied, rule_rank r = 0 :=
    fun r hr =>
      rule_rank_process_deny r (process_deny_rules_shape _ _ r hr).1
        (process_deny_rules_shape _ _ r hr).2
  have hB : ∀ r ∈ domain_deny_rules categories selection.denied, rule_rank r = 1 :=
    fun r hr =>
      rule_rank_domain_deny r (domain_deny_rules_shape _ _ r hr).1
        (domain_deny_rules_shape _ _ r hr).2
  have hC : ∀ r ∈ allow_domain_rules categories selection.allowed, rule_rank r = 2 :=
    fun r hr => rule_rank_allow r (allow_domain_rules_shape _ _ r hr)
  show (process_deny_rules categories selection.denied ++
      domain_deny_rules categories selection.denied ++
      allow_domain_rules categories selection.allowed).Pairwise _
  rw [List.pairwise_append]
  refine ⟨?_, pairwise_rank_of_const _ 2 hC, ?_⟩
  · rw [List.pairwise_append]
    refine ⟨pairwise_rank_of_const _ 0 hA, pairwise_rank_of_const _ 1 hB, ?_⟩
    intro a ha b hb
    rw [hA a ha, hB b hb]
    exact Nat.zero_le 1
  · intro a ha b hb
    rcases List.mem_append.mp ha with h | h
    · rw [hA a h, hC b hb]
      exact Nat.le_of_lt (by decide)
    · rw [hB a h, hC b hb]
      exact Nat.le_of_lt (by decide)

/-- C5: in the rule list produced by `build_output`, every deny rule carrying
a process path (empty remote-domain list) precedes every deny rule carrying
domains, and those precede every allow rule, for any category order. -/
theorem c5_rule_emission_order (params : GenerateParams)
    (categories : List (String × Category)) (selection : CategorySelection) :
    ∀ (i j : Nat) (hi : i < (build_output params categories selection).rules.length)
      (hj : j < (build_output params categories selection).rules.length),
      (((build_output params categories selection).rules[i].action = "deny" ∧
        (build_output params categories selection).rules[i].remote_domains = [] ∧
        (build_output params categories selection).rules[j].action = "deny" ∧
        (build_output params categories selection).rules[j].remote_domains ≠ []) → i < j) ∧
      (((build_output params categories selection).rules[i].action = "deny" ∧
        (build_output params categories selection).rules[i].remote_domains ≠ [] ∧
        (build_output params categories selection).rules[j].action = "allow") → i < j) ∧
      (((build_output params categories selection).rules[i].action = "deny" ∧
        (build_output params categories selection).rules[i].remote_domains = [] ∧
        (build_output params categories selection).rules[j].action = "allow") → i < j) := by
  intro i j hi hj
  have hp := build_output_rules_rank_monotone params categories selection
  rw [List.pairwise_iff_getElem] at hp
  refine ⟨?_, ?_, ?_⟩
  · rintro ⟨h1, h2, h3, h4⟩
    by_contra hij
    push_neg at hij
    rcases Nat.lt_or_ge j i with hlt | hge
    · have := hp j i hj hi hlt
      rw [rule_rank_domain_deny _ h3 h4, rule_rank_process_deny _ h1 h2] at this
      omega
    · have heq : j = i := Nat.le_antisymm hij hge
      subst heq
      exact h4 h2
  · rintro ⟨h1, h2, h3⟩
    by_contra hij
    push_neg at hij
    rcases Nat.lt_or_ge j i with hlt | hge
    · have := hp j i hj hi hlt
      rw [rule_rank_allow _ h3, rule_rank_domain_deny _ h1 h2] at this
      omega
    · have heq : j = i := Nat.le_antisymm hij hge
      subst heq
      rw [h1] at h3
      exact absurd h3 (by decide)
  · rintro ⟨h1, h2, h3⟩
    by_contra hij
    push_neg at hij
    rcases Nat.lt_or_ge j i with hlt | hge
    · have := hp j i hj hi hlt
      rw [rule_rank_allow _ h3, rule_rank_process_deny _ h1 h2] at this
      omega
    · have heq : j = i := Nat.le_antisymm hij hge
      subst heq
      rw [h1] at h3
      exact absurd h3 (by decide)

/-- Category mixing a process-deny rule and a domain rule (for exercising
all three emission tiers at once). -/
def mixed_category : Category :=
  ⟨"Mixed", "Mixed rules", Severity.Recommended, "Mixed impact",
    [⟨"block helper", [], some "/usr/libexec/helper"⟩,
     ⟨"block endpoints", ["mixed.example.com"], none⟩]⟩

/-- Category list exercising all three emission tiers. -/
def mixed_categories : List (String × Category) :=
  [("mixed", mixed_category), ("apple-appstore", appstore_recommended_category)]

/-- Selection denying "mixed" and allowing "apple-appstore". -/
def mixed_selection : CategorySelection :=
  ⟨{"mixed"}, {"apple-appstore"}⟩

/-- Witness for C5: on a concrete three-tier output (one process-deny, one
domain-deny, one allow rule) the claimed index orderings hold. -/
theorem c5_rule_emission_order_witness :
    (build_output scenario1_params mixed_categories mixed_selection).rules.length = 3 ∧
    ((0:Nat) < 1 ∧ (1:Nat) < 2 ∧ (0:Nat) < 2) :=
  ⟨by decide,
   (c5_rule_emission_order scenario1_params mixed_categories mixed_selection 0 1
      (by decide) (by decide)).1 (by decide),
   (c5_rule_emission_order scenario1_params mixed_categories mixed_selection 1 2
      (by decide) (by decide)).2.1 (by decide),
   (c5_rule_emission_order scenario1_params mixed_categories mixed_selection 0 2
      (by decide) (by decide)).2.2 (by decide)⟩

/-- Length of a `filterMap` counted by definedness of the mapping. -/
theorem length_filterMap_eq_countP {α β : Type} (f : α → Option β) (l : List α) :
    (l.filterMap f).length = l.countP (fun a => (f a).isSome) := by
  induction l with
  | nil => rfl
  | cons a t ih =>
    cases hf : f a <;> simp [List.filterMap_cons, List.countP_cons, hf, ih, Nat.add_comm]

/-- C6: for every denied category and every rule of it carrying a deny-process
target, `build_output` emits an output rule with action "deny", priority
"high", the target as process, no remote domains, remote and protocol "any",
and slug-prefixed notes; and the number of such process-deny rules equals the
total number of deny-process targets over the denied categories (exactly one
rule per target). -/
theorem c6_process_deny_emission :
    (∀ (params : GenerateParams) (categories : List (String × Category))
        (selection : CategorySelection) (slug : String) (cat : Category)
        (rule : CategoryRule) (proc : String),
      (slug, cat) ∈ categories → slug ∈ selection.denied → rule ∈ cat.rules →
      rule.deny_process = some proc →
      (⟨"deny", some "high", proc, [], some "any", some "any", none,
        "[" ++ slug ++ "] " ++ rule.notes⟩ : LsRule) ∈
        (build_output params categories selection).rules) ∧
    (∀ (params : GenerateParams) (categories : List (String × Category))
        (selection : CategorySelection),
      (build_output params categories selection).rules.countP
          (fun r => r.action == "deny" && r.remote_domains.isEmpty) =
        ((categories.filter fun p => decide (p.1 ∈ selection.denied)).map
          (fun p => p.2.rules.countP fun r => r.deny_process.isSome)).sum) := by
  constructor
  · intro params categories selection slug cat rule proc hmem hden hrule hproc
    show _ ∈ process_deny_rules categories selection.denied ++
      domain_deny_rules categories selection.denied ++
      allow_domain_rules categories selection.allowed
    rw [List.mem_append]
    refine Or.inl ?_
    rw [List.mem_append]
    refine Or.inl ?_
    rw [process_deny_rules, List.mem_flatMap]
    refine ⟨(slug, cat), List.mem_filter.mpr ⟨hmem, by simpa using hden⟩, ?_⟩
    rw [List.mem_filterMap]
    exact ⟨rule, hrule, by rw [hproc]; rfl⟩
  · intro params categories selection
    show (process_deny_rules categories selection.denied ++
      domain_deny_rules categories selection.denied ++
      allow_domain_rules categories selection.allowed).countP _ = _
    rw [List.countP_append, List.countP_append]
    have hB : (domain_deny_rules categories selection.denied).countP
        (fun r => r.action == "deny" && r.remote_domains.isEmpty) = 0 := by
      rw [List.countP_eq_zero]
      intro r hr
      have hsh := domain_deny_rules_shape categories selection.denied r hr
      simp [hsh.1, List.isEmpty_iff, hsh.2]
    have hC : (allow_domain_rules categories selection.allowed).countP
        (fun r => r.action == "deny" && r.remote_domains.isEmpty) = 0 := by
      rw [List.countP_eq_zero]
      intro r hr
      have hsh := allow_domain_rules_shape categories selection.allowed r hr
      simp [hsh]
    have hA : (process_deny_rules categories selection.denied).countP
        (fun r => r.action == "deny" && r.remote_domains.isEmpty) =
        (process_deny_rules categories selection.denied).length := by
      rw [List.countP_eq_length]
      intro r hr
      have hsh := process_deny_rules_shape categories selection.denied r hr
      simp [hsh.1, List.isEmpty_iff, hsh.2]
    rw [hA, hB, hC]
    simp only [Nat.add_zero]
    rw [process_deny_rules, List.length_flatMap]
    congr 1
    apply List.map_congr_left
    intro p hp
    simp only [Function.comp_apply]
    rw [length_filterMap_eq_countP]
    apply List.countP_congr
    intro r hr
    simp [Option.isSome_map']

/-- Scenario 1 category list: apple-telemetry only. -/
def scenario1_categories : List (String × Category) :=
  [("apple-telemetry", telemetry_category)]

/-- Witness for C6 at Scenario 1: a single denied category with one
deny-process rule produces exactly the one expected high-priority deny rule,
and that rule is a member of the output. -/
theorem c6_process_deny_emission_witness :
    (build_output scenario1_params scenario1_categories
      (select_categories scenario1_params scenario1_categories)).rules =
      [⟨"deny", some "high", "/usr/libexec/telemetryd", [], some "any", some "any", none,
        "[apple-telemetry] block telemetry daemon"⟩] ∧
    (⟨"deny", some "high", "/usr/libexec/telemetryd", [], some "any", some "any", none,
      "[" ++ "apple-telemetry" ++ "] " ++ "block telemetry daemon"⟩ : LsRule) ∈
      (build_output scenario1_params scenario1_categories
        (select_categories scenario1_params scenario1_categories)).rules :=
  ⟨by decide,
   c6_process_deny_emission.1 scenario1_params scenario1_categories
     (select_categories scenario1_params scenario1_categories) "apple-telemetry"
     telemetry_category ⟨"block telemetry daemon", [], some "/usr/libexec/telemetryd"⟩
     "/usr/libexec/telemetryd" (by decide) (by decide) (by decide) rfl⟩

/-! ## The description string (claim C7) -/

/-- Unfolding of `String.append` on the underlying character lists. -/
theorem string_data_append (a b : String) : (a ++ b).data = a.data ++ b.data := rfl

/-- Strings with equal character lists are equal. -/
theorem string_ext (a b : String) (h : a.data = b.data) : a = b := by
  cases a
  cases b
  simp only at h
  rw [h]

/-- String concatenation is associative. -/
theorem string_append_assoc (a b c : String) : a ++ b ++ c = a ++ (b ++ c) := by
  apply string_ext
  simp only [string_data_append, List.append_assoc]

/-- The empty string is a right identity for concatenation. -/
theorem string_append_empty (a : String) : a ++ "" = a := by
  apply string_ext
  simp only [string_data_append]
  exact List.append_nil _

/-- Merging the sentence-final period into the following Denied clause. -/
theorem dot_merge_denied (s : String) : "." ++ (" Denied (" ++ s) = ". Denied (" ++ s := by
  rw [← string_append_assoc]
  rfl

/-- Merging the sentence-final period into the following Allowed clause. -/
theorem dot_merge_allowed (s : String) : "." ++ (" Allowed (" ++ s) = ". Allowed (" ++ s := by
  rw [← string_append_assoc]
  rfl

/-- The description exactly as claim C7 words it (each clause, including the
final Denied clause, ends with a period); to be compared with
`build_description`, which is embedded from the source. -/
def claimed_description (params : GenerateParams) (selection : CategorySelection) : String :=
  "Generated by apple-ecocide v" ++ CARGO_PKG_VERSION ++ ". Mode: " ++ params.mode.as_str ++
      ". Severity: " ++ params.severity.as_str ++ "." ++
    (if (selection.allowed.sort (· ≤ ·)).isEmpty then ""
     else " Allowed (" ++ toString (selection.allowed.sort (· ≤ ·)).length ++ "): " ++
       String.intercalate ", " (selection.allowed.sort (· ≤ ·)) ++ ".") ++
    (" Denied (" ++ toString (selection.denied.sort (· ≤ ·)).length ++ "): " ++
      String.intercalate ", " (selection.denied.sort (· ≤ ·)) ++ ".")

/-- The description as the amended claim words it: identical to the claimed
format except that the final Denied clause does not end with a period. -/
def amended_description (params : GenerateParams) (selection : CategorySelection) : String :=
  "Generated by apple-ecocide v" ++ CARGO_PKG_VERSION ++ ". Mode: " ++ params.mode.as_str ++
      ". Severity: " ++ params.severity.as_str ++ "." ++
    (if (selection.allowed.sort (· ≤ ·)).isEmpty then ""
     else " Allowed (" ++ toString (selection.allowed.sort (· ≤ ·)).length ++ "): " ++
       String.intercalate ", " (selection.allowed.sort (· ≤ ·)) ++ ".") ++
    (" Denied (" ++ toString (selection.denied.sort (· ≤ ·)).length ++ "): " ++
      String.intercalate ", " (selection.denied.sort (· ≤ ·)))

/-- Counterexample to C7 as stated: on a one-category denial the description
built by the source lacks the trailing period that the claim requires after
the Denied clause. -/
theorem c7_description_counterexample :
    build_description scenario1_params ⟨{"apple-telemetry"}, ∅⟩ ≠
      claimed_description scenario1_params ⟨{"apple-telemetry"}, ∅⟩ := by
  simp only [build_description, claimed_description, Finset.sort_singleton, Finset.sort_empty]
  decide

/-- C7 (amended): the description equals the claimed clause-by-clause format —
base clause, optional sorted Allowed clause, then a sorted Denied clause —
except that the Denied clause does not end with a period. -/
theorem c7_description_format (params : GenerateParams) (selection : CategorySelection) :
    build_description params selection = amended_description params selection := by
  unfold build_description amended_description
  by_cases hA : (selection.allowed.sort (· ≤ ·)).isEmpty = true
  · rw [if_pos hA, if_pos hA]
    simp only [string_append_assoc, string_append_empty, dot_merge_denied]
  · rw [if_neg hA, if_neg hA]
    simp only [string_append_assoc, string_append_empty, dot_merge_denied, dot_merge_allowed]

/-- C8: given a loaded category list, `generate_rules_json` fails exactly when
the selection has empty denied and allowed sets, and then with the
"no categories selected" message; otherwise it produces the output document. -/
theorem c8_empty_selection_error (params : GenerateParams)
    (categories : List (String × Category)) :
    ((∃ e, generate_rules_json params categories = Except.error e) ↔
      (select_categories params categories).denied = ∅ ∧
        (select_categories params categories).allowed = ∅) ∧
    ((select_categories params categories).denied = ∅ ∧
        (select_categories params categories).allowed = ∅ →
      generate_rules_json params categories =
        Except.error "No categories selected. Use include patterns or enable 'all'.") := by
  by_cases h : (select_categories params categories).denied = ∅ ∧
      (select_categories params categories).allowed = ∅
  · have hval : generate_rules_json params categories =
        Except.error "No categories selected. Use include patterns or enable 'all'." := by
      simp only [generate_rules_json]
      rw [if_pos h]
    exact ⟨⟨fun _ => h, fun _ => ⟨_, hval⟩⟩, fun _ => hval⟩
  · have hval : generate_rules_json params categories =
        Except.ok (build_output params categories (select_categories params categories)) := by
      simp only [generate_rules_json]
      rw [if_neg h]
    refine ⟨⟨?_, fun hc => absurd hc h⟩, fun hc => absurd hc h⟩
    rintro ⟨e, he⟩
    rw [hval] at he
    exact absurd he (by simp)

/-- Witness for C8 at Scenario 5: an include pattern matching only a category
above the severity threshold selects nothing, so generation reports the
"no categories selected" error. -/
theorem c8_empty_selection_error_witness :
    generate_rules_json include_skip_params scenario2_categories =
      Except.error "No categories selected. Use include patterns or enable 'all'." :=
  (c8_empty_selection_error include_skip_params scenario2_categories).2
    ⟨by decide, by decide⟩

/-- C9: `matches_pattern` runs the glob matcher exactly when the pattern
contains a metacharacter (an invalid glob then matches nothing), and is plain
string equality otherwise; `matches_any_pattern` holds exactly when some
listed pattern matches, so the empty list matches nothing. -/
theorem c9_pattern_matching :
    (∀ slug pattern : String,
      pattern.toList.any (fun c => c == '*' || c == '?' || c == '[') = true →
      matches_pattern slug pattern =
        ((Pattern.new pattern).map (fun p => p.matches slug)).getD false) ∧
    (∀ slug pattern : String,
      pattern.toList.any (fun c => c == '*' || c == '?' || c == '[') = true →
      Pattern.new pattern = none → matches_pattern slug pattern = false) ∧
    (∀ slug pattern : String,
      pattern.toList.any (fun c => c == '*' || c == '?' || c == '[') = false →
      (matches_pattern slug pattern = true ↔ pattern = slug)) ∧
    (∀ (slug : String) (patterns : List String),
      matches_any_pattern slug patterns = true ↔
        ∃ p ∈ patterns, matches_pattern slug p = true) ∧
    (∀ slug : String, matches_any_pattern slug [] = false) := by
  refine ⟨?_, ?_, ?_, ?_, ?_⟩
  · intro slug pattern h
    rw [matches_pattern, if_pos h]
    cases hp : Pattern.new pattern <;> simp [hp]
  · intro slug pattern h hnone
    rw [matches_pattern, if_pos h, hnone]
  · intro slug pattern h
    rw [matches_pattern, if_neg (by rw [h]; simp)]
    exact beq_iff_eq
  · intro slug patterns
    simp [matches_any_pattern, List.any_eq_true]
  · intro slug
    rfl

/-- Witness for C9: the glob dispatch on the metacharacter pattern
"*-telemetry" and the equality dispatch on the literal pattern
"apple-appstore". -/
theorem c9_pattern_matching_witness :
    ("*-telemetry".toList.any (fun c => c == '*' || c == '?' || c == '[') = true ∧
      matches_pattern "apple-telemetry" "*-telemetry" =
        ((Pattern.new "*-telemetry").map
          (fun p => p.matches "apple-telemetry")).getD false) ∧
    ("apple-appstore".toList.any (fun c => c == '*' || c == '?' || c == '[') = false ∧
      (matches_pattern "apple-appstore" "apple-appstore" = true ↔
        "apple-appstore" = "apple-appstore")) :=
  ⟨⟨by decide, c9_pattern_matching.1 "apple-telemetry" "*-telemetry" (by decide)⟩,
   ⟨by decide, c9_pattern_matching.2.2.1 "apple-appstore" "apple-appstore" (by decide)⟩⟩

/-- C10: the WASM entry point always sets the `all` flag, so with mode
"block" the selection always takes the deny-all-within-severity branch and
the include patterns cannot affect the result. -/
theorem c10_wasm_include_has_no_effect_in_block_mode :
    (∀ mode severity inc exc name,
      (wasm_build_params mode severity inc exc name).all = true) ∧
    (∀ (severity inc exc name : String) (categories : List (String × Category)),
      select_categories (wasm_build_params "block" severity inc exc name) categories =
        { denied := ((categories.filter fun p =>
            within_severity ((Severity.from_str severity).getD Severity.Recommended) p.2 &&
              !is_excluded
                (if exc.isEmpty then [] else (exc.splitOn ",").map String.trim) p.1).map
                  Prod.fst).toFinset
          allowed := ∅ }) ∧
    (∀ (severity inc1 inc2 exc name : String) (categories : List (String × Category)),
      select_categories (wasm_build_params "block" severity inc1 exc name) categories =
        select_categories (wasm_build_params "block" severity inc2 exc name) categories) := by
  refine ⟨fun _ _ _ _ _ => rfl, ?_, ?_⟩
  · intro severity inc exc name categories
    exact select_categories_block_all (wasm_build_params "block" severity inc exc name)
      categories rfl (Or.inr rfl)
  · intro severity inc1 inc2 exc name categories
    rw [select_categories_block_all (wasm_build_params "block" severity inc1 exc name)
          categories rfl (Or.inr rfl),
        select_categories_block_all (wasm_build_params "block" severity inc2 exc name)
          categories rfl (Or.inr rfl)]
    rfl

end AppleEcocide
